import Mathlib

/-!
Verification development for the BaseModelTS repository: a shallow embedding
of the declarative field-mapping engine (BaseModel / Container), covering the
processor/modifier chain executor, indirect processor-name resolution,
container-inheritance merging, the guard-expression substitution step, and
the field-extraction engine, together with theorems settling the spec claims.

JavaScript runtime values are modelled by the inductive `Value`; thrown
exceptions (TypeError on property access of null/undefined, SyntaxError from
JSON parsing) are modelled with `Except Err`; `console.error` diagnostics are
modelled as an explicit log of strings threaded through the functions that
emit them.  String primitives (split, indexOf, replace-first, trim) are
re-implemented over character lists with the exact semantics the source
relies on.
-/

namespace BMTS

/-- JS exception kinds (plus fuel exhaustion, which models the divergence of
the source's unguarded recursion in getProcessor). -/
inductive Err where
  | typeError
  | jsonError
  | condError
  | fuelOut
deriving DecidableEq, Repr

/-- JS runtime values: undefined, null, booleans, (integer) numbers, strings,
arrays and plain objects with insertion-ordered string keys. -/
inductive Value where
  | undefined
  | vnull
  | bool (b : Bool)
  | num (n : Int)
  | str (s : String)
  | arr (xs : List Value)
  | obj (ps : List (String × Value))
deriving Repr

/-- First-match association-list lookup: JS property read on a plain object. -/
def alookup {α : Type} : List (String × α) → String → Option α
  | [], _ => none
  | (k, v) :: rest, key => if k = key then some v else alookup rest key

/-- JS property write on a plain object: overwriting keeps the original
insertion position, a fresh key is appended. -/
def setAssoc {α : Type} : List (String × α) → String → α → List (String × α)
  | [], key, x => [(key, x)]
  | (k, v) :: rest, key, x =>
      if k = key then (key, x) :: rest else (k, v) :: setAssoc rest key x

/-- JS truthiness. -/
def truthy : Value → Bool
  | .undefined => false
  | .vnull => false
  | .bool b => b
  | .num n => decide (n ≠ 0)
  | .str s => decide (s ≠ "")
  | .arr _ => true
  | .obj _ => true

/-- Digits-only string to array index. -/
def parseIndex (s : String) : Option Nat :=
  if s.data ≠ [] ∧ s.data.all Char.isDigit then
    some (s.data.foldl (fun n c => n * 10 + (c.toNat - 48)) 0)
  else none

/-- JS property access `v[k]`: throws TypeError on undefined/null, looks up
object keys and numeric array indices, yields undefined otherwise. -/
def getProp : Value → String → Except Err Value
  | .undefined, _ => .error .typeError
  | .vnull, _ => .error .typeError
  | .obj ps, k => .ok ((alookup ps k).getD .undefined)
  | .arr xs, k =>
      .ok (match parseIndex k with
           | some i => xs.getD i .undefined
           | none => .undefined)
  | _, _ => .ok .undefined

/-- JS `typeof v === 'object'` (true for null, arrays and objects). -/
def isObjectType : Value → Bool
  | .vnull => true
  | .arr _ => true
  | .obj _ => true
  | _ => false

/- ---- character-list string primitives with JS semantics ---- -/

/-- `split` on a single separator character, JS semantics: the result is
never empty, empty fragments are kept. -/
def splitCharAux (c : Char) : List Char → List Char → List (List Char)
  | [], cur => [cur.reverse]
  | x :: xs, cur =>
      if x = c then cur.reverse :: splitCharAux c xs []
      else splitCharAux c xs (x :: cur)

/-- JS `s.split(c)` for a one-character separator. -/
def jsSplit (c : Char) (s : String) : List String :=
  (splitCharAux c s.data []).map String.mk

/-- Does `pat` occur at the head of `s`? -/
def listIsStart : List Char → List Char → Bool
  | [], _ => true
  | _ :: _, [] => false
  | p :: ps, x :: xs => p = x && listIsStart ps xs

/-- `split` on a multi-character separator (JS `s.split(sep)`), structurally
recursive on a fuel bound (one character is consumed per step, so an initial
fuel of the string length plus one always suffices for a nonempty
separator). -/
def splitSub (sep : List Char) : Nat → List Char → List Char →
    List (List Char)
  | 0, s, cur => [cur.reverse ++ s]
  | fuel + 1, s, cur =>
      match s with
      | [] => [cur.reverse]
      | x :: xs =>
          if sep ≠ [] && listIsStart sep (x :: xs) then
            cur.reverse :: splitSub sep fuel ((x :: xs).drop sep.length) []
          else
            splitSub sep fuel xs (x :: cur)

/-- JS `s.split(sep)` for a (nonempty) multi-character separator string. -/
def jsSplitStr (sep : String) (s : String) : List String :=
  (splitSub sep.data (s.data.length + 1) s.data []).map String.mk

/-- Does the character occur in the string (JS `s.indexOf(c) >= 0`)? -/
def jsContainsChar (c : Char) (s : String) : Bool :=
  s.data.any (fun x => x = c)

/-- Does `pat` occur as a substring? -/
def containsSubAux (pat : List Char) : List Char → Bool
  | [] => false
  | x :: xs => listIsStart pat (x :: xs) || containsSubAux pat xs

/-- JS `s.indexOf(sub) >= 0` for a (nonempty) substring. -/
def jsContainsStr (sub : String) (s : String) : Bool :=
  containsSubAux sub.data s.data

/-- Remove the first occurrence of a character: JS `s.replace(c, '')` for a
one-character string pattern (String.replace in JS replaces only the first
occurrence when given a string pattern). -/
def removeFirstCharAux (c : Char) : List Char → List Char
  | [] => []
  | x :: xs => if x = c then xs else x :: removeFirstCharAux c xs

/-- JS `s.replace('@', '')` and friends. -/
def removeFirstChar (c : Char) (s : String) : String :=
  String.mk (removeFirstCharAux c s.data)

/-- JS whitespace class (the characters relevant to the source). -/
def isWsChar (c : Char) : Bool :=
  c = ' ' || c = '\t' || c = '\n' || c = '\r'

/-- JS `s.replace(/\s/g, '')`. -/
def removeWS (s : String) : String :=
  String.mk (s.data.filter (fun c => !isWsChar c))

/-- JS `s.replace(/[\[\]]/g, '')`. -/
def removeBrackets (s : String) : String :=
  String.mk (s.data.filter (fun c => !(c = '[' || c = ']')))

/-- JS `s.trim()`. -/
def trimStr (s : String) : String :=
  String.mk (((s.data.dropWhile isWsChar).reverse.dropWhile isWsChar).reverse)

/-- Join a list of strings with a separator (JS `Array.prototype.join`). -/
def joinSep (sep : String) : List String → String
  | [] => ""
  | [x] => x
  | x :: y :: rest => x ++ sep ++ joinSep sep (y :: rest)

/-- JS `splitted.slice(1, -1).join('.')`. -/
def middleJoin (xs : List String) : String :=
  joinSep "." ((xs.drop 1).dropLast)

/-- First index (if any) at which `pat` occurs in `s`. -/
def firstIdxSub (pat : List Char) : List Char → Option Nat
  | [] => none
  | x :: xs =>
      if listIsStart pat (x :: xs) then some 0
      else (firstIdxSub pat xs).map (· + 1)

/-- Last index (if any) at which character `c` occurs. -/
def lastIdxChar (c : Char) (s : List Char) : Option Nat :=
  (firstIdxSub [c] s.reverse).map (fun i => s.length - 1 - i)

/-- Option-valued "first of two": `a` if present, else `b`. -/
def firstSome {α : Type} : Option α → Option α → Option α
  | some x, _ => some x
  | none, b => b

/- ---- JS string coercion (used when substituted values are joined back
        into the condition string) ---- -/

mutual

/-- JS ToString coercion of a value. -/
def jsToString : Value → String
  | .undefined => "undefined"
  | .vnull => "null"
  | .bool true => "true"
  | .bool false => "false"
  | .num n => toString n
  | .str s => s
  | .arr xs => joinSep "," (jsToStringList xs)
  | .obj _ => "[object Object]"

/-- ToString of each element of a list of values. -/
def jsToStringList : List Value → List String
  | [] => []
  | v :: vs => jsToString v :: jsToStringList vs

end

/- ---- JSON.parse (host primitive used by the chain executor on modifier
        parameter payloads); implemented for the JSON subset the field-spec
        grammar uses: null, booleans, integers, escape-free strings and
        arrays ---- -/

/-- Skip JSON whitespace. -/
def skipWs (cs : List Char) : List Char :=
  cs.dropWhile isWsChar

/-- Read an escape-free JSON string body up to the closing quote. -/
def readJStr : List Char → Option (String × List Char)
  | [] => none
  | c :: rest =>
      if c = '"' then some ("", rest)
      else (readJStr rest).map (fun r => (String.mk (c :: r.1.data), r.2))

/-- Read a digit run as a natural number (none if no digit). -/
def readDigits (cs : List Char) : Option (Nat × List Char) :=
  let ds := cs.takeWhile Char.isDigit
  if ds = [] then none
  else some (ds.foldl (fun n c => n * 10 + (c.toNat - 48)) 0, cs.drop ds.length)

mutual

/-- Fueled recursive-descent parser for one JSON value. -/
def parseJ : Nat → List Char → Option (Value × List Char)
  | 0, _ => none
  | fuel + 1, cs =>
      match skipWs cs with
      | [] => none
      | c :: rest =>
          if c = 'n' then
            if listIsStart ['u', 'l', 'l'] rest then
              some (.vnull, rest.drop 3)
            else none
          else if c = 't' then
            if listIsStart ['r', 'u', 'e'] rest then
              some (.bool true, rest.drop 3)
            else none
          else if c = 'f' then
            if listIsStart ['a', 'l', 's', 'e'] rest then
              some (.bool false, rest.drop 4)
            else none
          else if c = '"' then
            (readJStr rest).map (fun r => (.str r.1, r.2))
          else if c = '-' then
            (readDigits rest).map (fun r => (.num (-(r.1 : Int)), r.2))
          else if c.isDigit then
            (readDigits (c :: rest)).map (fun r => (.num (r.1 : Int), r.2))
          else if c = '[' then
            match skipWs rest with
            | ']' :: rest2 => some (.arr [], rest2)
            | other => (parseJArr fuel other).map (fun r => (.arr r.1, r.2))
          else none

/-- Fueled parser for the comma-separated elements of a JSON array. -/
def parseJArr : Nat → List Char → Option (List Value × List Char)
  | 0, _ => none
  | fuel + 1, cs =>
      match parseJ fuel cs with
      | none => none
      | some (v, rest) =>
          match skipWs rest with
          | ']' :: rest2 => some ([v], rest2)
          | ',' :: rest2 =>
              (parseJArr fuel rest2).map (fun r => (v :: r.1, r.2))
          | _ => none

end

/-- JS `JSON.parse`, throwing a SyntaxError on malformed input. -/
def jsonParse (s : String) : Except Err Value :=
  match parseJ (s.length + 1) s.data with
  | some (v, rest) => if skipWs rest = [] then .ok v else .error .jsonError
  | none => .error .jsonError

/- ---- data model ---- -/

/-- A container: canonical name, effective field-spec mapping (field-spec key
to processor-spec string, insertion ordered) and its data source.  The
owning-model back-reference of the source class is a lookup convenience and
is not needed by any modelled operation. -/
structure Container where
  name : String
  fields : List (String × String)
  data : Value
deriving Repr

/-- The BaseModel state: processor and modifier registries (name to
function), described-container templates, concrete containers, the parent
reference, and the model instance viewed as a JS object (the target of the
source's `fromDot(this, ...)` reads). -/
structure BaseModel where
  processors : List (String × (Value → Except Err Value)) := []
  modifiers : List (String × (Value → Value → Except Err Value)) := []
  described_containers : List (String × List (String × String)) := []
  containers : List (String × Container) := []
  parent : Value := .vnull
  selfObj : Value := .obj []

/-- Source `fromDot(obj, path)`: empty path returns the object unchanged;
otherwise the dot-separated segments are folded with
`typeof o === 'object' ? o[i] : o` — so a null intermediate throws a
TypeError (typeof null is 'object'), while an undefined intermediate is
passed through unchanged. -/
def fromDot (obj : Value) (path : String) : Except Err Value :=
  if path = "" then .ok obj
  else
    (jsSplit '.' path).foldlM
      (fun o i => if isObjectType o then getProp o i else .ok o) obj

/-- Source `proceedProcessor`: apply the registered processor, or yield
undefined when the name is not registered. -/
def proceedProcessor (m : BaseModel) (name : String) (data : Value) :
    Except Err Value :=
  match alookup m.processors name with
  | some f => f data
  | none => .ok .undefined

/-- The token loop of the closure returned by `createProcessorCallie`: for a
token containing ':' the modifier is invoked on (accumulator, parsed JSON
params); a provided truthy `value` replaces the accumulator
(`acc = mod_result.value || acc`); a truthy `break` stops the loop.  A token
without ':' runs `proceedProcessor`. -/
def procLoop (m : BaseModel) (acc : Value) : List String → Except Err Value
  | [] => .ok acc
  | name :: rest =>
      if jsContainsChar ':' name then
        let full_mod := jsSplit ':' name
        let mod_name := full_mod.headD ""
        match jsonParse (full_mod.getD 1 "") with
        | .error e => .error e
        | .ok mod_params =>
            match alookup m.modifiers mod_name with
            | some f =>
                match f acc mod_params with
                | .error e => .error e
                | .ok mod_result =>
                    match getProp mod_result "value" with
                    | .error e => .error e
                    | .ok v =>
                        let acc2 := if truthy v then v else acc
                        match getProp mod_result "break" with
                        | .error e => .error e
                        | .ok b =>
                            if truthy b then .ok acc2
                            else procLoop m acc2 rest
            | none => procLoop m acc rest
      else
        match proceedProcessor m name acc with
        | .error e => .error e
        | .ok acc2 => procLoop m acc2 rest

/-- Source `createProcessorCallie`: split the chain string on '.' and return
the token-loop closure. -/
def createProcessorCallie (m : BaseModel) (names : String) :
    Value → Except Err Value :=
  fun data => procLoop m data (jsSplit '.' names)

/-- The `createProcessorCallie` call as it happens inside `getFields`, where
the argument is the (JS) return value of `getProcessor`: calling
`names.split('.')` on a non-string (undefined) throws a TypeError. -/
def createProcessorCallieV (m : BaseModel) (names : Value) :
    Except Err (Value → Except Err Value) :=
  match names with
  | .str s => .ok (createProcessorCallie m s)
  | _ => .error .typeError

/-- Source `getProcessor`, resolving indirect '@container.field' processor
references.  The source recursion is unguarded; the embedding is indexed by
fuel, and `Err.fuelOut` at every fuel witnesses divergence.  A name without
'@' is returned as-is; a missing container falls off the end of the JS
function (returns undefined); a missing field makes the subsequent
`processor_name.indexOf('@')` throw a TypeError. -/
def getProcessor (m : BaseModel) : Nat → String → Except Err Value
  | 0, _ => .error .fuelOut
  | fuel + 1, name =>
      if jsContainsChar '@' name then
        let splitted_keys := jsSplit '.' (removeFirstChar '@' name)
        let container_name := splitted_keys.headD ""
        match alookup m.containers container_name with
        | some container =>
            let property_name := splitted_keys.getLastD ""
            match alookup container.fields property_name with
            | none => .error .typeError
            | some processor_name =>
                if jsContainsChar '@' processor_name then
                  getProcessor m fuel processor_name
                else .ok (.str processor_name)
        | none => .ok .undefined
      else .ok (.str name)

/- ---- container inheritance ---- -/

/-- The pure string part of `getExtendedFields`: detect the ' extends '
clause, strip whitespace from both sides, and return the canonical name
together with the listed template names (a bracketed comma list, or a single
name). -/
def parseExtendsClause (full_name : String) : Option (String × List String) :=
  if jsContainsStr " extends " full_name then
    let name_splitted := (jsSplitStr " extends " full_name).map removeWS
    let rhs := name_splitted.getD 1 ""
    let templates :=
      if jsContainsChar '[' rhs then jsSplit ',' (removeBrackets rhs)
      else [rhs]
    some (name_splitted.headD "", templates)
  else none

/-- JS `Object.assign({}, a, b)` on insertion-ordered string-keyed objects:
keys of `a` keep their positions with values overridden by `b` on collision,
and keys only in `b` are appended in `b`'s order. -/
def assignObj {α : Type} (a b : List (String × α)) : List (String × α) :=
  a.map (fun p => (p.1, (alookup b p.1).getD p.2)) ++
    b.filter (fun p => (alookup a p.1).isNone)

/-- Source `getExtendedFields`: no ' extends ' clause yields false (none);
otherwise the referenced templates that exist in `described_containers` are
merged left to right with `Object.assign` (later templates override earlier
ones), and the canonical name is returned with the merged mapping. -/
def getExtendedFields (m : BaseModel) (full_name : String) :
    Option (String × List (String × String)) :=
  (parseExtendsClause full_name).map (fun p =>
    (p.1,
     p.2.foldl (fun ext el =>
       match alookup m.described_containers el with
       | some t => assignObj ext t
       | none => ext) []))

/-- Source `addContainer` (the positional-arguments form): when an extends
clause is present the stored mapping is
`Object.assign({}, fields, extended)` — the container's own explicit fields
first, the merged template fields last.  The new container is stored under
the canonical name; a truthy source becomes its data, else an empty object.
(The `setProxy` aliasing call is outside the modelled core.) -/
def addContainer (m : BaseModel) (full_name : String)
    (fields : List (String × String)) (source : Value) : BaseModel :=
  let resolved :=
    match getExtendedFields m full_name with
    | some (n, ext) => (n, assignObj fields ext)
    | none => (full_name, fields)
  let c : Container :=
    { name := resolved.1, fields := resolved.2,
      data := if truthy source then source else .obj [] }
  { m with containers := setAssoc m.containers resolved.1 c }

/-- Source `describeContainer`: register a (possibly extending) template
under its canonical name, with the same merge rule as `addContainer`. -/
def describeContainer (m : BaseModel) (full_name : String)
    (fields : List (String × String)) : BaseModel :=
  let resolved :=
    match getExtendedFields m full_name with
    | some (n, ext) => (n, assignObj fields ext)
    | none => (full_name, fields)
  { m with
    described_containers :=
      setAssoc m.described_containers resolved.1 resolved.2 }

/- ---- diagnostics messages (console.error output of the source) ---- -/

/-- Diagnostic emitted by `getFieldFromContainer` on a missing container. -/
def msgContainerNotFound (cname : String) : String :=
  "BaseModel::getFieldFromContainer() Container " ++ cname ++ " not found"

/-- Diagnostic emitted by `getFields` on a falsy resolved source root. -/
def msgFieldNotFound (el : String) : String :=
  "BaseModel::getFields() Field " ++ el ++ " not found"

/-- Diagnostic emitted by `getFields` on an empty field-spec mapping. -/
def msgSpecifyFields : String :=
  "BaseModel::getFields() You have to specify field names"

/- ---- reading a field from a container ---- -/

/-- Source `getFieldFromContainer`: a missing container gives a null context
group and a console.error report, after which `fromDot` is applied to it
anyway. -/
def getFieldFromContainer (m : BaseModel) (cname field : String)
    (log : List String) : Except Err Value × List String :=
  let context_group : Value :=
    match alookup m.containers cname with
    | some c => c.data
    | none => .vnull
  let log2 :=
    if truthy context_group then log
    else log ++ [msgContainerNotFound cname]
  (fromDot context_group field, log2)

/- ---- condition evaluator ---- -/

/-- One token of `parseCondition`'s substitution loop.  The token is split on
'.'; a first segment equal to the literal strings '^' or '&' resolves the
middle segments against the parent or the model itself and reads the last
segment as a property; a first segment equal to the literal string '@'
(note: never '@name') goes through `getFieldFromContainer` with the
container name obtained by stripping the '@'.  Any other token is left
unchanged. -/
def substToken (m : BaseModel) (tok : String) (log : List String) :
    Except Err Value × List String :=
  let splitted_keys := jsSplit '.' tok
  let model_path := middleJoin splitted_keys
  let property_name := splitted_keys.getLastD ""
  let head0 := splitted_keys.headD ""
  if head0 = "^" then
    (match fromDot m.parent model_path with
     | .error e => .error e
     | .ok o => getProp o property_name, log)
  else if head0 = "&" then
    (match fromDot m.selfObj model_path with
     | .error e => .error e
     | .ok o => getProp o property_name, log)
  else if head0 = "@" then
    let container_name := removeFirstChar '@' head0
    match getFieldFromContainer m container_name model_path log with
    | (.error e, log2) => (.error e, log2)
    | (.ok o, log2) => (getProp o property_name, log2)
  else (.ok (.str tok), log)

/-- Substitute every whitespace token of the condition, stringifying
substituted values as JS does when the array is joined back. -/
def substTokens (m : BaseModel) :
    List String → List String → Except Err (List String) × List String
  | [], log => (.ok [], log)
  | t :: ts, log =>
      match substToken m t log with
      | (.error e, log2) => (.error e, log2)
      | (.ok v, log2) =>
          let s := match v with
                   | .str s0 => s0
                   | other => jsToString other
          match substTokens m ts log2 with
          | (.error e, log3) => (.error e, log3)
          | (.ok rest, log3) => (.ok (s :: rest), log3)

/-- Parse one literal operand of the constrained condition grammar. -/
def parseLiteral (s : String) : Option Value :=
  if s = "true" then some (.bool true)
  else if s = "false" then some (.bool false)
  else if s = "null" then some .vnull
  else if s = "undefined" then some .undefined
  else match s.data with
       | '"' :: rest =>
           if rest ≠ [] ∧ rest.getLast! = '"' then
             some (.str (String.mk rest.dropLast))
           else none
       | '-' :: rest =>
           (readDigits rest).bind (fun r =>
             if r.2 = [] then some (.num (-(r.1 : Int))) else none)
       | other =>
           (readDigits other).bind (fun r =>
             if r.2 = [] then some (.num (r.1 : Int)) else none)

/-- Modelled from the spec: the source evaluates the substituted condition
string by dynamically constructing a JS function (`Function('return ' ++
expression)`), a host facility with no shallow embedding; per spec section
4.2 the expression language is constrained to a single comparison between
literal operands with the operators ==, !=, <, <=, >, >= (or a lone literal),
which is what this evaluator implements. -/
def evalCondStr (s : String) : Except Err Bool :=
  match jsSplit ' ' s with
  | [a] =>
      match parseLiteral a with
      | some v => .ok (truthy v)
      | none => .error .condError
  | [a, op, b] =>
      match parseLiteral a, parseLiteral b with
      | some va, some vb =>
          if op = "==" then .ok (jsToString va = jsToString vb)
          else if op = "!=" then .ok (jsToString va ≠ jsToString vb)
          else
            match va, vb with
            | .num x, .num y =>
                if op = "<" then .ok (x < y)
                else if op = "<=" then .ok (x ≤ y)
                else if op = ">" then .ok (x > y)
                else if op = ">=" then .ok (x ≥ y)
                else .error .condError
            | _, _ => .error .condError
      | _, _ => .error .condError
  | _ => .error .condError

/-- Source `parseCondition`: whitespace-tokenize the expression, substitute
reference tokens, join, and evaluate the resulting boolean expression. -/
def parseCondition (m : BaseModel) (expression : String) (log : List String) :
    Except Err Bool × List String :=
  match substTokens m (jsSplit ' ' expression) log with
  | (.error e, log2) => (.error e, log2)
  | (.ok items, log2) => (evalCondStr (joinSep " " items), log2)

/- ---- guard clause extraction (the /if\((.+)\)/i regex) ---- -/

/-- The span matched by the greedy regex: from the first case-insensitive
occurrence of "if(" to the last ')' of the string, requiring at least one
character in between; yields (start index, end index). -/
def guardSpan (el : String) : Option (Nat × Nat) :=
  let lower := el.data.map Char.toLower
  match firstIdxSub ['i', 'f', '('] lower with
  | none => none
  | some i =>
      match lastIdxChar ')' el.data with
      | some j => if i + 4 ≤ j + 1 ∧ i + 3 < j + 1 then some (i, j) else none
      | none => none

/-- Capture group 1 of the guard regex: the characters strictly between
"if(" and the final ')'. -/
def findGuard (el : String) : Option String :=
  (guardSpan el).map (fun p =>
    String.mk ((el.data.drop (p.1 + 3)).take (p.2 - (p.1 + 3))))

/-- Source `el.replace(/if\((.+)\)/ig, '').trim()`. -/
def stripGuard (el : String) : String :=
  match guardSpan el with
  | some (i, j) =>
      trimStr (String.mk (el.data.take i ++ el.data.drop (j + 1)))
  | none => trimStr el

/- ---- field extraction engine ---- -/

/-- The tail of one `getFields` iteration, after the external-reference
resolution: strip the guard clause, apply the ' as ' alias (the left side
replaces the property name only for non-external fields, the right side
becomes the output key), read the value (external value, or a property of
the container's own data), resolve the processor spec via `getProcessor`,
compile the chain (throwing on a non-string spec) and run it. -/
def finishEntry (m : BaseModel) (c : Container) (fuel : Nat)
    (el spec : String) (is_external : Bool)
    (property_name field_name : String) (external_value : Value)
    (log : List String) : Except Err (Option (String × Value)) × List String :=
  let el_without_cond := stripGuard el
  let pf :=
    if jsContainsStr " as " el_without_cond then
      let keys := jsSplitStr " as " el_without_cond
      ((if is_external then property_name else keys.headD ""),
       keys.getD 1 "")
    else (property_name, field_name)
  match (if is_external then .ok external_value
         else getProp c.data pf.1 : Except Err Value) with
  | .error e => (.error e, log)
  | .ok value =>
      match getProcessor m fuel spec with
      | .error e => (.error e, log)
      | .ok proc_names =>
          match createProcessorCallieV m proc_names with
          | .error e => (.error e, log)
          | .ok callie =>
              match callie value with
              | .error e => (.error e, log)
              | .ok res => (.ok (some (pf.2, res)), log)

/-- One `getFields` iteration over a field-spec entry `el` with processor
spec `spec`: evaluate the guard if present (a false guard skips the entry);
for a key containing '.', take the first whitespace token, split it on '.',
and when its first segment is '^', '&' or starts with '@' resolve the
external root ('^' only when the parent is truthy); report a falsy resolved
root; read the last segment off it (throwing on null/undefined); then finish
via `finishEntry`. -/
def processEntry (m : BaseModel) (c : Container) (fuel : Nat)
    (el spec : String) (log : List String) :
    Except Err (Option (String × Value)) × List String :=
  match (match findGuard el with
         | some g => parseCondition m g log
         | none => (.ok true, log)) with
  | (.error e, log1) => (.error e, log1)
  | (.ok false, log1) => (.ok none, log1)
  | (.ok true, log1) =>
      if jsContainsChar '.' el then
        let keys := (jsSplit ' ' el).headD ""
        let splitted_keys := jsSplit '.' keys
        let property_name := splitted_keys.getLastD ""
        let head0 := splitted_keys.headD ""
        let is_external :=
          head0 = "^" || head0 = "&" || listIsStart ['@'] head0.data
        let resolved : Except Err Value × List String :=
          if listIsStart ['@'] head0.data then
            getFieldFromContainer m (removeFirstChar '@' head0)
              (middleJoin splitted_keys) log1
          else if head0 = "^" && truthy m.parent then
            (fromDot m.parent (middleJoin splitted_keys), log1)
          else if head0 = "&" then
            (fromDot m.selfObj (middleJoin splitted_keys), log1)
          else (.ok c.data, log1)
        match resolved with
        | (.error e, log2) => (.error e, log2)
        | (.ok modelV, log2) =>
            let log3 :=
              if truthy modelV then log2
              else log2 ++ [msgFieldNotFound el]
            match getProp modelV property_name with
            | .error e => (.error e, log3)
            | .ok external_value =>
                finishEntry m c fuel el spec is_external
                  property_name property_name external_value log3
      else
        finishEntry m c fuel el spec false el el .vnull log1

/-- The `Object.keys(container.fields).map(...)` loop of `getFields`,
accumulating the ordered result object; a thrown error aborts the whole
extraction. -/
def getFieldsLoop (m : BaseModel) (c : Container) (fuel : Nat) :
    List (String × String) → List (String × Value) → List String →
    Except Err Value × List String
  | [], acc, log => (.ok (.obj acc), log)
  | (el, spec) :: rest, acc, log =>
      match processEntry m c fuel el spec log with
      | (.error e, log2) => (.error e, log2)
      | (.ok none, log2) => getFieldsLoop m c fuel rest acc log2
      | (.ok (some (k, v)), log2) =>
          getFieldsLoop m c fuel rest (setAssoc acc k v) log2

/-- Source `getFields`: look up the container (a missing one throws, since
its fields are dereferenced), report and return an empty object on an empty
field-spec mapping, and otherwise run the entry loop. -/
def getFields (m : BaseModel) (fuel : Nat) (container_name : String)
    (log : List String) : Except Err Value × List String :=
  match alookup m.containers container_name with
  | none => (.error .typeError, log)
  | some c =>
      if c.fields.isEmpty then
        (.ok (.obj []), log ++ [msgSpecifyFields])
      else getFieldsLoop m c fuel c.fields [] log

/- ---- registered functions used by the example (src/example/bundle.js)
        and by the spec's testable properties ---- -/

mutual

/-- Structural value equality, standing in for JS strict equality (===);
they agree on the primitive values the example's modifiers compare. -/
def valueBeq : Value → Value → Bool
  | .undefined, .undefined => true
  | .vnull, .vnull => true
  | .bool a, .bool b => a == b
  | .num a, .num b => a == b
  | .str a, .str b => a == b
  | .arr a, .arr b => valueListBeq a b
  | .obj a, .obj b => valueObjBeq a b
  | _, _ => false

/-- Elementwise equality of value lists. -/
def valueListBeq : List Value → List Value → Bool
  | [], [] => true
  | a :: as_, b :: bs => valueBeq a b && valueListBeq as_ bs
  | _, _ => false

/-- Entrywise equality of object entry lists. -/
def valueObjBeq : List (String × Value) → List (String × Value) → Bool
  | [], [] => true
  | (k, a) :: as_, (k2, b) :: bs => k == k2 && valueBeq a b && valueObjBeq as_ bs
  | _, _ => false

end

/-- JS `Array.prototype.indexOf` (first index of a strictly-equal element,
-1 when absent); calling it on a non-array throws. -/
def jsIndexOf (params v : Value) : Except Err Int :=
  match params with
  | .arr xs =>
      .ok (let rec go : List Value → Int → Int
             | [], _ => -1
             | x :: rest, i => if valueBeq x v then i else go rest (i + 1)
           go xs 0)
  | _ => .error .typeError

/-- The example's `strip` modifier:
`(value, param) => ({ value: value.substr(0, param) })`;
`substr` on a non-string throws. -/
def stripMod (value param : Value) : Except Err Value :=
  match value, param with
  | .str s, .num n => .ok (.obj [("value", .str (String.mk (s.data.take n.toNat)))])
  | _, _ => .error .typeError

/-- The example's `allow` modifier:
`(value, params) => ({ break: params.indexOf(value) >= 0 })`. -/
def allowMod (value params : Value) : Except Err Value :=
  match jsIndexOf params value with
  | .error e => .error e
  | .ok i => .ok (.obj [("break", .bool (decide (0 ≤ i)))])

/-- The example's `default` modifier:
`(value, param) => ({ value: value || param })`. -/
def defaultMod (value param : Value) : Except Err Value :=
  .ok (.obj [("value", if truthy value then value else param)])

/-- The `double` processor of the spec's break-gating example (x to x*2);
it is registered by the test setup described in the spec, not by the
repository itself. -/
def doubleProc (value : Value) : Except Err Value :=
  match value with
  | .num n => .ok (.num (n * 2))
  | _ => .ok .undefined

/- ---- fixture models for the concrete claims ---- -/

/-- Model with the example's modifiers and the spec's `double` processor
registered, as the break-gating example requires. -/
def M3 : BaseModel :=
  { modifiers := [("strip", stripMod), ("allow", allowMod),
                  ("default", defaultMod)],
    processors := [("double", doubleProc)] }

/-- Model with templates A (x, y) and B (x) described, for the inheritance
precedence claim. -/
def M1 : BaseModel :=
  { described_containers := [("A", [("x", "sa"), ("y", "ya")]),
                             ("B", [("x", "sb")])] }

/-- Model with one container whose field spec points at itself through an
indirect reference: the cyclic input for processor-name resolution. -/
def Mcyc : BaseModel :=
  { containers := [("a", { name := "a", fields := [("f", "@a.f")],
                           data := .obj [] })] }

/-- Model for the missing-container extraction claim: container `main` whose
first field references the unregistered container `ghost`, and whose second
field is an ordinary own field that would extract fine on its own. -/
def MC2 : BaseModel :=
  { processors := [("double", doubleProc)],
    containers := [("main",
      { name := "main",
        fields := [("@ghost.x", "double"), ("name", "double")],
        data := .obj [("name", .num 7)] })] }

/- ---- lookup lemmas for the Object.assign merge ---- -/

/-- Lookup distributes over list append, preferring the left list. -/
theorem alookup_append {α : Type} (l1 l2 : List (String × α)) (k : String) :
    alookup (l1 ++ l2) k = firstSome (alookup l1 k) (alookup l2 k) := by
  induction l1 with
  | nil => simp [alookup, firstSome]
  | cons p t ih =>
      by_cases h : p.1 = k
      · simp [alookup, h, firstSome]
      · simp [alookup, h, ih]

/-- Lookup after the value-override map of `assignObj`. -/
theorem alookup_map_override {α : Type} (b a : List (String × α)) (k : String) :
    alookup (a.map (fun p => (p.1, (alookup b p.1).getD p.2))) k
      = (alookup a k).map (fun v => (alookup b k).getD v) := by
  induction a with
  | nil => simp [alookup]
  | cons p t ih =>
      by_cases h : p.1 = k
      · simp [alookup, h]
      · simp [alookup, h, ih]

/-- Lookup after the fresh-keys filter of `assignObj`. -/
theorem alookup_filter_isNone {α : Type} (a b : List (String × α)) (k : String) :
    alookup (b.filter (fun p => (alookup a p.1).isNone)) k
      = if (alookup a k).isNone then alookup b k else none := by
  induction b with
  | nil => simp [alookup]
  | cons p t ih =>
      by_cases hk : p.1 = k
      · subst hk
        by_cases ha : (alookup a p.1).isNone
        · simp [List.filter, alookup, ha, ih]
        · simp [List.filter, alookup, ha, ih]
      · by_cases ha : (alookup a p.1).isNone
        · simp [List.filter, alookup, ha, hk, ih]
        · simp [List.filter, alookup, ha, hk, ih]

/-- Lookup through `Object.assign({}, a, b)`: `b`'s entry wins, else `a`'s. -/
theorem alookup_assignObj {α : Type} (a b : List (String × α)) (k : String) :
    alookup (assignObj a b) k = firstSome (alookup b k) (alookup a k) := by
  rw [assignObj, alookup_append, alookup_map_override, alookup_filter_isNone]
  cases ha : alookup a k <;> cases hb : alookup b k <;>
    simp [firstSome, ha, hb]

/-- Lookup after `setAssoc` at the written key. -/
theorem alookup_setAssoc_self {α : Type} (l : List (String × α)) (k : String)
    (v : α) : alookup (setAssoc l k v) k = some v := by
  induction l with
  | nil => simp [setAssoc, alookup]
  | cons p t ih =>
      by_cases h : p.1 = k
      · simp [setAssoc, alookup, h]
      · simp [setAssoc, alookup, h, ih]

/-- `firstSome` with an empty right argument. -/
theorem firstSome_none_right {α : Type} (a : Option α) :
    firstSome a none = a := by
  cases a <;> rfl

/-- `firstSome` is associative. -/
theorem firstSome_assoc {α : Type} (a b c : Option α) :
    firstSome (firstSome a b) c = firstSome a (firstSome b c) := by
  cases a <;> rfl

/- ---- claim theorems ---- -/

/-- Claim C1, counterexample: declaring `C extends [A,B]` with own field
`x` mapped to "sc", while template A maps `x` to "sa" and template B maps
`x` to "sb", produces an effective mapping whose entry for `x` is B's "sb",
not C's own "sc" — refuting the claim that the container's own explicit
fields always win on collision. -/
theorem c1_inheritance_precedence_counterexample :
    (alookup (addContainer M1 "C extends [A,B]" [("x", "sc")]
        Value.vnull).containers "C").map (fun c => alookup c.fields "x")
      = some (some "sb") ∧
    some (some "sb") ≠ some (some ("sc" : String)) :=
  ⟨rfl, by decide⟩

/-- Claim C1 (amended): when a container is declared as `C extends [A,B]`,
the referenced templates are merged in listed order with later templates
overriding earlier ones on key collision (B over A, as claimed), but the
container's own explicit fields are layered FIRST, not last — so on a key
collision the template specs override the container's own spec, and the
container's own spec is only used for keys that no referenced template
defines. -/
theorem c1_inheritance_precedence (m : BaseModel)
    (own tA tB : List (String × String)) (src : Value)
    (hA : alookup m.described_containers "A" = some tA)
    (hB : alookup m.described_containers "B" = some tB) :
    alookup (addContainer m "C extends [A,B]" own src).containers "C" =
      some { name := "C",
             fields := assignObj own (assignObj (assignObj [] tA) tB),
             data := if truthy src then src else .obj [] } ∧
    ∀ k, alookup (assignObj own (assignObj (assignObj [] tA) tB)) k =
      firstSome (alookup tB k) (firstSome (alookup tA k) (alookup own k)) := by
  constructor
  · have hp : parseExtendsClause "C extends [A,B]" = some ("C", ["A", "B"]) :=
      rfl
    simp [addContainer, getExtendedFields, hp, List.foldl, hA, hB,
      alookup_setAssoc_self]
  · intro k
    simp [alookup_assignObj, alookup, firstSome_none_right, firstSome_assoc]

/-- Claim C1, witness: the amended precedence theorem applied to the
concrete model M1 with own field `x` mapped to "sc". -/
theorem c1_inheritance_precedence_witness :
    alookup (addContainer M1 "C extends [A,B]" [("x", "sc")]
        Value.vnull).containers "C" =
      some { name := "C",
             fields := assignObj [("x", "sc")]
               (assignObj (assignObj [] [("x", "sa"), ("y", "ya")])
                 [("x", "sb")]),
             data := if truthy Value.vnull then Value.vnull else .obj [] } ∧
    ∀ k, alookup (assignObj [("x", "sc")]
        (assignObj (assignObj [] [("x", "sa"), ("y", "ya")])
          [("x", "sb")])) k =
      firstSome (alookup [("x", "sb")] k)
        (firstSome (alookup [("x", "sa"), ("y", "ya")] k)
          (alookup [("x", "sc")] k)) :=
  c1_inheritance_precedence M1 [("x", "sc")] [("x", "sa"), ("y", "ya")]
    [("x", "sb")] Value.vnull rfl rfl

/-- Claim C2: extraction of container `main` of MC2, whose first field-spec
entry `@ghost.x` references the unregistered container `ghost`, reports the
missing container and the unresolved field through the diagnostics channel
but then ABORTS with a TypeError (reading property `x` of the null context
group), producing no result at all — the second, perfectly extractable
field `name` is never produced, refuting local degradation. -/
theorem c2_missing_container_aborts :
    getFields MC2 5 "main" [] =
      (.error .typeError,
       [msgContainerNotFound "ghost", msgFieldNotFound "@ghost.x"]) := rfl

/-- Claim C3, counterexample: with the example's `allow` modifier and the
`double` processor registered, the chain "allow:[1,2].double" applied to 3
yields 6 (double DOES run, since 3 is not in [1,2] and allow therefore does
not signal break) — refuting the claim that it yields 3 unchanged. -/
theorem c3_break_gated_chain_counterexample :
    createProcessorCallie M3 "allow:[1,2].double" (.num 3) = .ok (.num 6) ∧
    (Except.ok (Value.num 6) : Except Err Value) ≠ Except.ok (Value.num 3) :=
  ⟨rfl, by simp⟩

/-- Claim C3 (amended): the example's `allow` modifier signals break when
the value IS in the params list, so "allow:[1,2].double" applied to 3 runs
`double` and yields 6, while applied to 2 it halts the chain and yields 2
unchanged — exactly inverted from the claimed behavior. -/
theorem c3_break_gated_chain :
    createProcessorCallie M3 "allow:[1,2].double" (.num 3) = .ok (.num 6) ∧
    createProcessorCallie M3 "allow:[1,2].double" (.num 2) = .ok (.num 2) :=
  ⟨rfl, rfl⟩

/-- Claim C4, counterexample: the example's `strip` modifier with parameter
0 returns an object providing the falsy value "" — and the accumulator is
NOT replaced by it: the chain "strip:0" on "ab" yields "ab", not "",
refuting the claim that provided falsy values replace the accumulator. -/
theorem c4_falsy_value_counterexample :
    createProcessorCallie M3 "strip:0" (.str "ab") = .ok (.str "ab") ∧
    (Except.ok (Value.str "ab") : Except Err Value) ≠
      Except.ok (Value.str "") :=
  ⟨rfl, by simp⟩

/-- Claim C4 (amended): for every registered modifier token in a chain, the
accumulator is replaced by the `value` provided by the returned object only
when that value is truthy (`acc = mod_result.value || acc`); falsy provided
values — 0, "", false, null, undefined — leave the accumulator unchanged. -/
theorem c4_modifier_value_replacement (m : BaseModel) (tok : String)
    (rest : List String) (acc params r v b : Value)
    (f : Value → Value → Except Err Value)
    (h1 : jsContainsChar ':' tok = true)
    (h2 : alookup m.modifiers ((jsSplit ':' tok).headD "") = some f)
    (h3 : jsonParse ((jsSplit ':' tok).getD 1 "") = .ok params)
    (h4 : f acc params = .ok r)
    (h5 : getProp r "value" = .ok v)
    (h6 : getProp r "break" = .ok b) :
    procLoop m acc (tok :: rest) =
      if truthy b then .ok (if truthy v then v else acc)
      else procLoop m (if truthy v then v else acc) rest := by
  rw [List.headD_eq_head?] at h2
  rw [List.getD_eq_getElem?_getD] at h3
  simp [procLoop, h1, h2, h3, h4, h5, h6]

/-- Claim C4, witness: the replacement rule applied to the concrete
"strip:0" step on accumulator "ab" (provided value "", falsy, no break). -/
theorem c4_modifier_value_replacement_witness :
    procLoop M3 (.str "ab") ["strip:0"] =
      if truthy Value.undefined
      then .ok (if truthy (Value.str "") then Value.str "" else .str "ab")
      else procLoop M3
        (if truthy (Value.str "") then Value.str "" else .str "ab") [] :=
  c4_modifier_value_replacement M3 "strip:0" [] (.str "ab") (.num 0)
    (.obj [("value", .str "")]) (.str "") .undefined stripMod
    rfl rfl rfl rfl rfl rfl

/-- Claim C5: in the condition evaluator's substitution loop, a token with a
named-container marker such as "@user.a.b" is NOT substituted — it is left
verbatim, for every model state and log, because the source compares the
token's first segment with the literal string '@', which never equals
'@user'.  This contradicts the claimed substitution of @name markers (the
sibling getFields code uses the correct indexOf('@') === 0 test, so the
condition-evaluator comparison is a slip). -/
theorem c5_guard_substitution_dead (m : BaseModel) (log : List String) :
    substToken m "@user.a.b" log = (.ok (.str "@user.a.b"), log) := rfl

/-- Claim C6: indirect processor-name resolution does not terminate on a
cyclic reference — with container `a` whose field `f` has spec "@a.f",
resolving "@a.f" exhausts every fuel bound, i.e. the source's unguarded
recursion diverges instead of failing with a RecursionLimitExceeded
condition. -/
theorem c6_cyclic_resolution_diverges :
    ∀ fuel : Nat, getProcessor Mcyc fuel "@a.f" = .error .fuelOut := by
  intro fuel
  induction fuel with
  | zero => rfl
  | succ n ih => exact ih

/-- Claim C7: tokens execute left-to-right, and when a registered modifier
signals a truthy `break`, the chain returns the current accumulator (after
the modifier's own value replacement) immediately — the result does not
depend on the remaining tokens, which are never invoked. -/
theorem c7_break_halts_chain (m : BaseModel) (tok : String)
    (rest : List String) (acc params r v b : Value)
    (f : Value → Value → Except Err Value)
    (h1 : jsContainsChar ':' tok = true)
    (h2 : alookup m.modifiers ((jsSplit ':' tok).headD "") = some f)
    (h3 : jsonParse ((jsSplit ':' tok).getD 1 "") = .ok params)
    (h4 : f acc params = .ok r)
    (h5 : getProp r "value" = .ok v)
    (h6 : getProp r "break" = .ok b)
    (h7 : truthy b = true) :
    procLoop m acc (tok :: rest) = .ok (if truthy v then v else acc) := by
  rw [List.headD_eq_head?] at h2
  rw [List.getD_eq_getElem?_getD] at h3
  simp [procLoop, h1, h2, h3, h4, h5, h6, h7]

/-- Claim C7, witness: the breaking "allow:[1,2]" step on accumulator 2,
with a subsequent "double" token that is never invoked. -/
theorem c7_break_halts_chain_witness :
    procLoop M3 (.num 2) ["allow:[1,2]", "double"] = .ok (.num 2) :=
  c7_break_halts_chain M3 "allow:[1,2]" ["double"] (.num 2)
    (.arr [.num 1, .num 2]) (.obj [("break", .bool true)]) .undefined
    (.bool true) allowMod rfl rfl rfl rfl rfl rfl rfl

/-- Claim C8: a chain token without ':' naming an unregistered processor
sets the accumulator to the explicit undefined value and the chain continues
with the remaining tokens (it does not throw or stop). -/
theorem c8_unregistered_processor (m : BaseModel) (tok : String)
    (rest : List String) (acc : Value)
    (h1 : jsContainsChar ':' tok = false)
    (h2 : alookup m.processors tok = none) :
    procLoop m acc (tok :: rest) = procLoop m .undefined rest := by
  simp [procLoop, proceedProcessor, h1, h2]

/-- Claim C8, witness: the unregistered processor name "ghostproc" on
accumulator 1. -/
theorem c8_unregistered_processor_witness :
    procLoop M3 (.num 1) ["ghostproc"] = procLoop M3 .undefined [] :=
  c8_unregistered_processor M3 "ghostproc" [] (.num 1) rfl rfl

/-- Claim C9: for every processor-spec string containing '@' whose
referenced container (the first '.'-segment after removing the first '@') is
not registered, getProcessor returns undefined — not the input string and
not an error — and the subsequent chain compilation step, handed that
undefined spec, throws a TypeError (undefined.split). -/
theorem c9_missing_container_resolution (m : BaseModel) (fuel : Nat)
    (name : String)
    (h1 : jsContainsChar '@' name = true)
    (h2 : alookup m.containers
        ((jsSplit '.' (removeFirstChar '@' name)).headD "") = none) :
    getProcessor m (fuel + 1) name = .ok .undefined ∧
    createProcessorCallieV m .undefined = .error .typeError := by
  refine ⟨?_, rfl⟩
  rw [List.headD_eq_head?] at h2
  simp [getProcessor, h1, h2]

/-- Claim C9, witness: resolving "@ghost.x" on model M3, which has no
containers at all. -/
theorem c9_missing_container_resolution_witness :
    getProcessor M3 1 "@ghost.x" = .ok .undefined ∧
    createProcessorCallieV M3 .undefined = .error .typeError :=
  c9_missing_container_resolution M3 0 "@ghost.x" rfl rfl

/-- Claim C10: a chain token `name:params` whose params parse as valid JSON
but whose name is not in the modifier registry is a silent no-op — the
accumulator is unchanged, no break is signaled, and execution continues with
the next token (the executor also emits no diagnostics on this path). -/
theorem c10_unregistered_modifier_noop (m : BaseModel) (tok : String)
    (rest : List String) (acc params : Value)
    (h1 : jsContainsChar ':' tok = true)
    (h2 : jsonParse ((jsSplit ':' tok).getD 1 "") = .ok params)
    (h3 : alookup m.modifiers ((jsSplit ':' tok).headD "") = none) :
    procLoop m acc (tok :: rest) = procLoop m acc rest := by
  rw [List.getD_eq_getElem?_getD] at h2
  rw [List.headD_eq_head?] at h3
  simp [procLoop, h1, h2, h3]

/-- Claim C10, witness: the unregistered modifier token "nope:1" on
accumulator 7. -/
theorem c10_unregistered_modifier_noop_witness :
    procLoop M3 (.num 7) ["nope:1"] = procLoop M3 (.num 7) [] :=
  c10_unregistered_modifier_noop M3 "nope:1" [] (.num 7) (.num 1)
    rfl rfl rfl

end BMTS

